import Mathlib

/-!
Shallow embedding of the simvue-cli local run-state cache and run-lifecycle
reconciliation logic (src/src/simvue_cli/actions.py).

The remote Simvue service is an external collaborator; here it is a snapshot
value (status and recorded metrics) held in the state, and the outbound
mutations the CLI performs (metric submissions, event submissions, abort
calls, status commits, metadata commits) are recorded in outbox lists so that
frame conditions ("no other mutation") can be stated.  Wall-clock time
(`time.time()`) is passed to each operation as an explicit `now` argument.
Timestamp strings and the opaque `values` payload formatting are abstracted.
Python exceptions become the `ActionError` sum; `ValueError("... does not
exist.")` is `runNotFound`, `ValueError("... status is '...'")` is
`runInactive` carrying the observed status.
-/

/-- Lifecycle status of a remote run, as compared against string literals in
`_check_run_exists` and `set_run_status`. -/
inductive RemoteStatus
  | created
  | running
  | completed
  | failed
  | lost
  | terminated
  deriving DecidableEq, Repr

/-- Membership test of `_check_run_exists` line 71: the status tuple
`("lost", "terminated", "completed", "failed")`. -/
def RemoteStatus.isTerminal : RemoteStatus → Bool
  | RemoteStatus.lost => true
  | RemoteStatus.terminated => true
  | RemoteStatus.completed => true
  | RemoteStatus.failed => true
  | _ => false

/-- One recorded metric of a remote run.  The source reads
`metric.get("step", 0)` and `metric.get("time", 0)`, so the keys may be
absent; `Option` models the dictionary lookup with default. -/
structure Metric where
  step : Option Nat
  time : Option Int
  deriving DecidableEq, Repr

/-- The list `[metric.get("step", 0) for _, metric in run.metrics or []]`. -/
def metricSteps (ms : List Metric) : List Nat :=
  ms.map (fun m => m.step.getD 0)

/-- The list `[metric.get("time", 0) for _, metric in run.metrics or []]`. -/
def metricTimes (ms : List Metric) : List Int :=
  ms.map (fun m => m.time.getD 0)

/-- Python `max` over a list; the source only applies it to nonempty lists
(guarded by `if _metric_steps:`), on which it returns the maximum element. -/
def pyMaxList : List Nat → Nat
  | [] => 0
  | x :: xs => xs.foldl max x

/-- Python `min` over a list; the source only applies it to nonempty lists
(guarded by `if _times:`). -/
def pyMinList : List Int → Int
  | [] => 0
  | x :: xs => xs.foldl min x

/-- The remote run snapshot fetched by `Run(identifier=run_id)`: its status
and its recorded metrics history. -/
structure RemoteRun where
  status : RemoteStatus
  metrics : List Metric
  deriving DecidableEq, Repr

/-- The fields of the local per-run cache JSON file that the actions read
back: `{"step": <int>, "start_time": <float>}` (an `id`/`name` pair written
at creation time is never read and is omitted). -/
structure CacheEntry where
  step : Nat
  start_time : Int
  deriving DecidableEq, Repr

/-- The observable states of the local cache file for one run identifier:
missing, present but not valid JSON, or present with parsed contents. -/
inductive CacheFile
  | absent
  | malformed
  | entry (e : CacheEntry)
  deriving DecidableEq, Repr

/-- One element of the `metrics_list` submitted by `log_metrics`:
`{"values": ..., "time": now - start_time, "step": step}` (the formatted
`timestamp` string is abstracted away). -/
structure MetricSample where
  values : List (String × Int)
  time : Int
  step : Nat
  deriving DecidableEq, Repr

/-- Errors raised by the action layer.  `runNotFound` and `runInactive` are
the two `ValueError`s of `_check_run_exists`; `jsonDecodeError` is the
`json.JSONDecodeError` that `json.load` raises on a malformed cache file;
`fileNotFoundError` is what `pathlib.Path.unlink` / `open` raise on a missing
file; `commitFailed` stands for any exception propagated from a commit call
on the remote collaborator. -/
inductive ActionError
  | runNotFound
  | runInactive (status : RemoteStatus)
  | jsonDecodeError
  | fileNotFoundError
  | commitFailed
  deriving DecidableEq, Repr

/-- Whether an error is one of the two domain conditions that
`_check_run_exists` raises after purging the cache file. -/
def ActionError.isDomain : ActionError → Bool
  | ActionError.runNotFound => true
  | ActionError.runInactive _ => true
  | _ => false

/-- The world state for one run identifier: the remote run (or `none` when
the identifier is unknown to the server), the local cache file, and the
outboxes recording every outbound mutation the CLI has performed. -/
structure SimState where
  remote : Option RemoteRun
  cache : CacheFile
  submittedMetrics : List MetricSample
  submittedEvents : List String
  aborts : List String
  statusSets : List RemoteStatus
  metadataWrites : List (String × String)
  deriving DecidableEq, Repr

/-- `pathlib.Path.unlink()` with the default `missing_ok=False`: removes the
file, raising `FileNotFoundError` when it is already absent.  This is the
deletion used at the end of `set_run_status`. -/
def unlinkFile : CacheFile → Except ActionError CacheFile
  | CacheFile.absent => Except.error ActionError.fileNotFoundError
  | _ => Except.ok CacheFile.absent

/-- The existence-guarded deletion pattern of `_check_run_exists`:
`if run_shelf_file.exists(): run_shelf_file.unlink()`. -/
def guardedDelete (c : CacheFile) : Except ActionError CacheFile :=
  if c ≠ CacheFile.absent then unlinkFile c else Except.ok c

/-- The cache entry synthesized by `_check_run_exists` lines 78-89 for an
active run lacking a local cache file: `out_data = {"step": 0, "start_time":
time.time()}`, overwritten by `max(_metric_steps)` / `min(_times)` when the
respective list is nonempty. -/
def synthEntry (now : Int) (run : RemoteRun) : CacheEntry :=
  { step := if (metricSteps run.metrics).isEmpty then 0
            else pyMaxList (metricSteps run.metrics),
    start_time := if (metricTimes run.metrics).isEmpty then now
                  else pyMinList (metricTimes run.metrics) }

/-- `_check_run_exists(run_id)`: fetch the remote run; on not-found purge the
cache file and raise `runNotFound`; on terminal status purge the cache file
and raise `runInactive status`; otherwise, when no cache file exists,
synthesize and persist one; return with the cache file guaranteed present.
The returned `(path, run)` pair of the source is the state itself here. -/
def checkRunExists (now : Int) (s : SimState) : SimState × Except ActionError Unit :=
  match s.remote with
  | none =>
      ({ s with cache := CacheFile.absent }, Except.error ActionError.runNotFound)
  | some run =>
      if run.status.isTerminal then
        ({ s with cache := CacheFile.absent },
         Except.error (ActionError.runInactive run.status))
      else if s.cache = CacheFile.absent then
        ({ s with cache := CacheFile.entry (synthEntry now run) }, Except.ok ())
      else
        (s, Except.ok ())

/-- `log_metrics(run_id, metrics)`: reconcile, re-read the cache file
(`json.load` raises on a missing or malformed file), submit one sample with
`step = run_data["step"]` and `time = now - run_data["start_time"]`, and only
after a successful commit increment and persist the step counter.
`commitOk` is whether `Metrics.new(...).commit()` succeeds. -/
def log_metrics (now : Int) (s : SimState) (values : List (String × Int))
    (commitOk : Bool) : SimState × Except ActionError Unit :=
  match checkRunExists now s with
  | (s1, Except.error e) => (s1, Except.error e)
  | (s1, Except.ok _) =>
      match s1.cache with
      | CacheFile.absent => (s1, Except.error ActionError.fileNotFoundError)
      | CacheFile.malformed => (s1, Except.error ActionError.jsonDecodeError)
      | CacheFile.entry e =>
          if commitOk then
            ({ s1 with
                submittedMetrics := s1.submittedMetrics
                  ++ [{ values := values, time := now - e.start_time, step := e.step }],
                cache := CacheFile.entry { step := e.step + 1, start_time := e.start_time } },
             Except.ok ())
          else
            (s1, Except.error ActionError.commitFailed)

/-- `log_event(run_id, event_message)`: reconcile, then submit one event; the
cache file is never read or written.  `commitOk` is whether
`Events.new(...).commit()` succeeds. -/
def log_event (now : Int) (s : SimState) (msg : String)
    (commitOk : Bool) : SimState × Except ActionError Unit :=
  match checkRunExists now s with
  | (s1, Except.error e) => (s1, Except.error e)
  | (s1, Except.ok _) =>
      if commitOk then
        ({ s1 with submittedEvents := s1.submittedEvents ++ [msg] }, Except.ok ())
      else
        (s1, Except.error ActionError.commitFailed)

/-- `set_run_status(run_id, status, reason)`: reconcile; when the new status
is `terminated` and a reason is given, first record the abort on the server;
then (unconditionally) set the status and commit; finally, when the new
status is terminal, delete the cache file with a bare `unlink()`. -/
def set_run_status (now : Int) (s : SimState) (status : RemoteStatus)
    (reason : Option String) : SimState × Except ActionError Unit :=
  match checkRunExists now s with
  | (s1, Except.error e) => (s1, Except.error e)
  | (s1, Except.ok _) =>
      let s2 :=
        match status, reason with
        | RemoteStatus.terminated, some r => { s1 with aborts := s1.aborts ++ [r] }
        | _, _ => s1
      let s3 := { s2 with
        remote := s2.remote.map (fun run => { run with status := status }),
        statusSets := s2.statusSets ++ [status] }
      if status.isTerminal then
        match unlinkFile s3.cache with
        | Except.ok c => ({ s3 with cache := c }, Except.ok ())
        | Except.error e => (s3, Except.error e)
      else
        (s3, Except.ok ())

/-- `update_metadata(run_id, metadata)`: reconcile, then replace the remote
metadata wholesale and commit; the cache file is never read or written.
`commitOk` is whether `run.commit()` succeeds. -/
def update_metadata (now : Int) (s : SimState) (md : String × String)
    (commitOk : Bool) : SimState × Except ActionError Unit :=
  match checkRunExists now s with
  | (s1, Except.error e) => (s1, Except.error e)
  | (s1, Except.ok _) =>
      if commitOk then
        ({ s1 with metadataWrites := s1.metadataWrites ++ [md] }, Except.ok ())
      else
        (s1, Except.error ActionError.commitFailed)

/-- `create_simvue_run(...)`: create the remote run with status `running` or
`created` (and no recorded metrics yet), then write a fresh cache entry
`{"start_time": time.time(), "step": 0}` bypassing the reconciler. -/
def create_simvue_run (now : Int) (s : SimState) (running : Bool) : SimState :=
  { s with
      remote := some { status := if running then RemoteStatus.running
                                 else RemoteStatus.created,
                       metrics := [] },
      cache := CacheFile.entry { step := 0, start_time := now } }

/-- N sequential single-process `log_metrics` calls against the same run,
the wall clock reading `times k` at the k-th call, every remote commit
succeeding. -/
def logMetricsLoop (values : List (String × Int)) (times : Nat → Int)
    (s : SimState) : Nat → SimState
  | 0 => s
  | n + 1 => (log_metrics (times n) (logMetricsLoop values times s n) values true).1

/-- Example metric: recorded at step 3, time 10. -/
def metricA : Metric := { step := some 3, time := some 10 }

/-- Example metric: recorded at step 7, time 20. -/
def metricB : Metric := { step := some 7, time := some 20 }

/-- Example remote run: running, with metrics recorded at steps 3 and 7 and
times 10 and 20 (the externally-created-run scenario of the spec). -/
def runTwoMetrics : RemoteRun := { status := RemoteStatus.running, metrics := [metricA, metricB] }

/-- Example remote run: running, no recorded metrics. -/
def runLive : RemoteRun := { status := RemoteStatus.running, metrics := [] }

/-- Example remote run: already completed. -/
def runDone : RemoteRun := { status := RemoteStatus.completed, metrics := [] }

/-- Example state: active remote run with two metrics, no local cache file. -/
def stAbsent : SimState :=
  { remote := some runTwoMetrics, cache := CacheFile.absent, submittedMetrics := [],
    submittedEvents := [], aborts := [], statusSets := [], metadataWrites := [] }

/-- Example state: active remote run, valid local cache file. -/
def stLive : SimState :=
  { remote := some runLive, cache := CacheFile.entry { step := 0, start_time := 5 },
    submittedMetrics := [], submittedEvents := [], aborts := [], statusSets := [],
    metadataWrites := [] }

/-- Example state: active remote run, local cache file present but unparsable. -/
def stBad : SimState :=
  { remote := some runLive, cache := CacheFile.malformed, submittedMetrics := [],
    submittedEvents := [], aborts := [], statusSets := [], metadataWrites := [] }

/-- Example state: remote run completed, stale local cache file. -/
def stDone : SimState :=
  { remote := some runDone, cache := CacheFile.entry { step := 2, start_time := 5 },
    submittedMetrics := [], submittedEvents := [], aborts := [], statusSets := [],
    metadataWrites := [] }

/-- Example state: run identifier unknown to the server, stale local cache file. -/
def stGone : SimState :=
  { remote := none, cache := CacheFile.entry { step := 1, start_time := 0 },
    submittedMetrics := [], submittedEvents := [], aborts := [], statusSets := [],
    metadataWrites := [] }

/-! ## Extremal value lemmas for python max / min -/

theorem foldl_max_eq_or_mem {α : Type} [LinearOrder α] (xs : List α) (a : α) :
    xs.foldl max a = a ∨ xs.foldl max a ∈ xs := by
  induction xs generalizing a with
  | nil => left; rfl
  | cons x xs ih =>
    rw [List.foldl_cons]
    rcases ih (max a x) with h | h
    · rw [h]
      rcases le_total x a with hx | hx
      · left; exact max_eq_left hx
      · right; rw [max_eq_right hx]; exact List.mem_cons_self x xs
    · right; exact List.mem_cons_of_mem x h

theorem le_foldl_max {α : Type} [LinearOrder α] (xs : List α) (a : α) :
    a ≤ xs.foldl max a := by
  induction xs generalizing a with
  | nil => exact le_refl a
  | cons x xs ih => exact le_trans (le_max_left a x) (ih (max a x))

theorem mem_le_foldl_max {α : Type} [LinearOrder α] (xs : List α) (a y : α)
    (hy : y ∈ xs) : y ≤ xs.foldl max a := by
  induction xs generalizing a with
  | nil => cases hy
  | cons x xs ih =>
    rw [List.foldl_cons]
    rcases List.mem_cons.mp hy with rfl | h
    · exact le_trans (le_max_right a y) (le_foldl_max xs (max a y))
    · exact ih (max a x) h

theorem foldl_min_eq_or_mem {α : Type} [LinearOrder α] (xs : List α) (a : α) :
    xs.foldl min a = a ∨ xs.foldl min a ∈ xs := by
  induction xs generalizing a with
  | nil => left; rfl
  | cons x xs ih =>
    rw [List.foldl_cons]
    rcases ih (min a x) with h | h
    · rw [h]
      rcases le_total a x with hx | hx
      · left; exact min_eq_left hx
      · right; rw [min_eq_right hx]; exact List.mem_cons_self x xs
    · right; exact List.mem_cons_of_mem x h

theorem foldl_min_le {α : Type} [LinearOrder α] (xs : List α) (a : α) :
    xs.foldl min a ≤ a := by
  induction xs generalizing a with
  | nil => exact le_refl a
  | cons x xs ih => exact le_trans (ih (min a x)) (min_le_left a x)

theorem foldl_min_le_mem {α : Type} [LinearOrder α] (xs : List α) (a y : α)
    (hy : y ∈ xs) : xs.foldl min a ≤ y := by
  induction xs generalizing a with
  | nil => cases hy
  | cons x xs ih =>
    rw [List.foldl_cons]
    rcases List.mem_cons.mp hy with rfl | h
    · exact le_trans (foldl_min_le xs (min a y)) (min_le_right a y)
    · exact ih (min a x) h

theorem pyMaxList_mem (x : Nat) (xs : List Nat) : pyMaxList (x :: xs) ∈ x :: xs := by
  rcases foldl_max_eq_or_mem xs x with h | h
  · rw [pyMaxList, h]; exact List.mem_cons_self x xs
  · exact List.mem_cons_of_mem x h

theorem le_pyMaxList (x : Nat) (xs : List Nat) (y : Nat) (hy : y ∈ x :: xs) :
    y ≤ pyMaxList (x :: xs) := by
  rcases List.mem_cons.mp hy with rfl | h
  · exact le_foldl_max xs y
  · exact mem_le_foldl_max xs x y h

theorem pyMinList_mem (x : Int) (xs : List Int) : pyMinList (x :: xs) ∈ x :: xs := by
  rcases foldl_min_eq_or_mem xs x with h | h
  · rw [pyMinList, h]; exact List.mem_cons_self x xs
  · exact List.mem_cons_of_mem x h

theorem pyMinList_le (x : Int) (xs : List Int) (y : Int) (hy : y ∈ x :: xs) :
    pyMinList (x :: xs) ≤ y := by
  rcases List.mem_cons.mp hy with rfl | h
  · exact foldl_min_le xs y
  · exact foldl_min_le_mem xs x y h

/-! ## Characterization of the reconciler -/

theorem checkRunExists_notFound (now : Int) (s : SimState) (h : s.remote = none) :
    checkRunExists now s
      = ({ s with cache := CacheFile.absent }, Except.error ActionError.runNotFound) := by
  rw [checkRunExists, h]

theorem checkRunExists_terminal (now : Int) (s : SimState) (run : RemoteRun)
    (h : s.remote = some run) (ht : run.status.isTerminal = true) :
    checkRunExists now s
      = ({ s with cache := CacheFile.absent },
         Except.error (ActionError.runInactive run.status)) := by
  rw [checkRunExists, h]
  simp [ht]

theorem checkRunExists_active_absent (now : Int) (s : SimState) (run : RemoteRun)
    (h : s.remote = some run) (ht : run.status.isTerminal = false)
    (hc : s.cache = CacheFile.absent) :
    checkRunExists now s
      = ({ s with cache := CacheFile.entry (synthEntry now run) }, Except.ok ()) := by
  rw [checkRunExists, h]
  simp [ht, hc]

theorem checkRunExists_active_present (now : Int) (s : SimState) (run : RemoteRun)
    (h : s.remote = some run) (ht : run.status.isTerminal = false)
    (hc : s.cache ≠ CacheFile.absent) :
    checkRunExists now s = (s, Except.ok ()) := by
  rw [checkRunExists, h]
  simp [ht, hc]

/-- Exhaustive case analysis of `_check_run_exists`: run unknown, run
terminal, run active with the cache file present, or run active with the
cache file absent (synthesis). -/
theorem checkRunExists_cases (now : Int) (s : SimState) :
    (s.remote = none ∧ checkRunExists now s
        = ({ s with cache := CacheFile.absent }, Except.error ActionError.runNotFound)) ∨
    (∃ run, s.remote = some run ∧ run.status.isTerminal = true ∧ checkRunExists now s
        = ({ s with cache := CacheFile.absent },
           Except.error (ActionError.runInactive run.status))) ∨
    (∃ run, s.remote = some run ∧ run.status.isTerminal = false ∧
      ((s.cache ≠ CacheFile.absent ∧ checkRunExists now s = (s, Except.ok ())) ∨
       (s.cache = CacheFile.absent ∧ checkRunExists now s
          = ({ s with cache := CacheFile.entry (synthEntry now run) }, Except.ok ())))) := by
  cases hr : s.remote with
  | none =>
    have h := checkRunExists_notFound now s hr
    rw [hr] at h
    exact Or.inl ⟨rfl, h⟩
  | some run =>
    cases ht : run.status.isTerminal with
    | true =>
      have h := checkRunExists_terminal now s run hr ht
      rw [hr] at h
      exact Or.inr (Or.inl ⟨run, rfl, ht, h⟩)
    | false =>
      refine Or.inr (Or.inr ⟨run, rfl, ht, ?_⟩)
      by_cases hc : s.cache = CacheFile.absent
      · have h := checkRunExists_active_absent now s run hr ht hc
        rw [hr] at h
        exact Or.inr ⟨hc, h⟩
      · exact Or.inl ⟨hc, checkRunExists_active_present now s run hr ht hc⟩

/-! ## Propagation of reconciler failures through the actions -/

theorem log_metrics_ck_error (now : Int) (s s1 : SimState) (e : ActionError)
    (values : List (String × Int)) (b : Bool)
    (hck : checkRunExists now s = (s1, Except.error e)) :
    log_metrics now s values b = (s1, Except.error e) := by
  simp only [log_metrics, hck]

theorem log_event_ck_error (now : Int) (s s1 : SimState) (e : ActionError)
    (msg : String) (b : Bool)
    (hck : checkRunExists now s = (s1, Except.error e)) :
    log_event now s msg b = (s1, Except.error e) := by
  simp only [log_event, hck]

theorem set_run_status_ck_error (now : Int) (s s1 : SimState) (e : ActionError)
    (status : RemoteStatus) (reason : Option String)
    (hck : checkRunExists now s = (s1, Except.error e)) :
    set_run_status now s status reason = (s1, Except.error e) := by
  simp only [set_run_status, hck]

theorem update_metadata_ck_error (now : Int) (s s1 : SimState) (e : ActionError)
    (md : String × String) (b : Bool)
    (hck : checkRunExists now s = (s1, Except.error e)) :
    update_metadata now s md b = (s1, Except.error e) := by
  simp only [update_metadata, hck]

/-! ## Behaviour of the actions on an active run with the cache file present -/

theorem log_metrics_entry_ok (now : Int) (s : SimState) (run : RemoteRun)
    (e : CacheEntry) (values : List (String × Int))
    (hr : s.remote = some run) (ht : run.status.isTerminal = false)
    (hc : s.cache = CacheFile.entry e) :
    log_metrics now s values true
      = ({ s with
            submittedMetrics := s.submittedMetrics
              ++ [{ values := values, time := now - e.start_time, step := e.step }],
            cache := CacheFile.entry { step := e.step + 1, start_time := e.start_time } },
         Except.ok ()) := by
  have hck := checkRunExists_active_present now s run hr ht (by simp [hc])
  simp only [log_metrics, hck, hc]
  simp

theorem log_metrics_entry_commitFail (now : Int) (s : SimState) (run : RemoteRun)
    (e : CacheEntry) (values : List (String × Int))
    (hr : s.remote = some run) (ht : run.status.isTerminal = false)
    (hc : s.cache = CacheFile.entry e) :
    log_metrics now s values false = (s, Except.error ActionError.commitFailed) := by
  have hck := checkRunExists_active_present now s run hr ht (by simp [hc])
  simp only [log_metrics, hck, hc]
  simp

theorem log_metrics_malformed (now : Int) (s : SimState) (run : RemoteRun)
    (values : List (String × Int)) (b : Bool)
    (hr : s.remote = some run) (ht : run.status.isTerminal = false)
    (hc : s.cache = CacheFile.malformed) :
    log_metrics now s values b = (s, Except.error ActionError.jsonDecodeError) := by
  have hck := checkRunExists_active_present now s run hr ht (by simp [hc])
  simp only [log_metrics, hck, hc]

theorem log_event_present_ok (now : Int) (s : SimState) (run : RemoteRun)
    (msg : String)
    (hr : s.remote = some run) (ht : run.status.isTerminal = false)
    (hc : s.cache ≠ CacheFile.absent) :
    log_event now s msg true
      = ({ s with submittedEvents := s.submittedEvents ++ [msg] }, Except.ok ()) := by
  have hck := checkRunExists_active_present now s run hr ht hc
  simp only [log_event, hck]
  simp

theorem log_event_present_commitFail (now : Int) (s : SimState) (run : RemoteRun)
    (msg : String)
    (hr : s.remote = some run) (ht : run.status.isTerminal = false)
    (hc : s.cache ≠ CacheFile.absent) :
    log_event now s msg false = (s, Except.error ActionError.commitFailed) := by
  have hck := checkRunExists_active_present now s run hr ht hc
  simp only [log_event, hck]
  simp

theorem update_metadata_present_ok (now : Int) (s : SimState) (run : RemoteRun)
    (md : String × String)
    (hr : s.remote = some run) (ht : run.status.isTerminal = false)
    (hc : s.cache ≠ CacheFile.absent) :
    update_metadata now s md true
      = ({ s with metadataWrites := s.metadataWrites ++ [md] }, Except.ok ()) := by
  have hck := checkRunExists_active_present now s run hr ht hc
  simp only [update_metadata, hck]
  simp

theorem update_metadata_present_commitFail (now : Int) (s : SimState) (run : RemoteRun)
    (md : String × String)
    (hr : s.remote = some run) (ht : run.status.isTerminal = false)
    (hc : s.cache ≠ CacheFile.absent) :
    update_metadata now s md false = (s, Except.error ActionError.commitFailed) := by
  have hck := checkRunExists_active_present now s run hr ht hc
  simp only [update_metadata, hck]
  simp

/-! ## Shape of a successful reconciliation -/

/-- A successful `_check_run_exists` leaves every component of the state
untouched except possibly the cache file, which it guarantees present; and it
only succeeds on an active remote run. -/
theorem checkRunExists_ok_shape (now : Int) (s s1 : SimState)
    (hck : checkRunExists now s = (s1, Except.ok ())) :
    (∃ run, s.remote = some run ∧ run.status.isTerminal = false) ∧
    s1.cache ≠ CacheFile.absent ∧ ∃ c, s1 = { s with cache := c } := by
  rcases checkRunExists_cases now s with ⟨hn, h⟩ | ⟨run, hr, ht, h⟩ |
    ⟨run, hr, ht, ⟨hc, h⟩ | ⟨hc, h⟩⟩
  · rw [h] at hck; simp at hck
  · rw [h] at hck; simp at hck
  · rw [h] at hck
    injection hck with h1 h2
    exact ⟨⟨run, hr, ht⟩, by rw [← h1]; exact hc, ⟨s.cache, by rw [← h1]⟩⟩
  · rw [h] at hck
    injection hck with h1 h2
    refine ⟨⟨run, hr, ht⟩, by rw [← h1]; simp, ⟨CacheFile.entry (synthEntry now run), h1.symm⟩⟩

/-! ## Behaviour of the actions after a successful reconciliation -/

theorem log_metrics_after_ok (now : Int) (s s1 : SimState) (e : CacheEntry)
    (values : List (String × Int))
    (hck : checkRunExists now s = (s1, Except.ok ()))
    (hc1 : s1.cache = CacheFile.entry e) :
    log_metrics now s values true
      = ({ s1 with
            submittedMetrics := s1.submittedMetrics
              ++ [{ values := values, time := now - e.start_time, step := e.step }],
            cache := CacheFile.entry { step := e.step + 1, start_time := e.start_time } },
         Except.ok ()) ∧
    log_metrics now s values false = (s1, Except.error ActionError.commitFailed) := by
  constructor
  · simp only [log_metrics, hck, hc1]
    simp
  · simp only [log_metrics, hck, hc1]
    simp

theorem log_metrics_after_ok_malformed (now : Int) (s s1 : SimState)
    (values : List (String × Int)) (b : Bool)
    (hck : checkRunExists now s = (s1, Except.ok ()))
    (hc1 : s1.cache = CacheFile.malformed) :
    log_metrics now s values b = (s1, Except.error ActionError.jsonDecodeError) := by
  simp only [log_metrics, hck, hc1]

theorem log_event_after_ok (now : Int) (s s1 : SimState) (msg : String)
    (hck : checkRunExists now s = (s1, Except.ok ())) :
    log_event now s msg true
      = ({ s1 with submittedEvents := s1.submittedEvents ++ [msg] }, Except.ok ()) ∧
    log_event now s msg false = (s1, Except.error ActionError.commitFailed) := by
  constructor
  · simp only [log_event, hck]
    simp
  · simp only [log_event, hck]
    simp

theorem update_metadata_after_ok (now : Int) (s s1 : SimState) (md : String × String)
    (hck : checkRunExists now s = (s1, Except.ok ())) :
    update_metadata now s md true
      = ({ s1 with metadataWrites := s1.metadataWrites ++ [md] }, Except.ok ()) ∧
    update_metadata now s md false = (s1, Except.error ActionError.commitFailed) := by
  constructor
  · simp only [update_metadata, hck]
    simp
  · simp only [update_metadata, hck]
    simp

theorem set_run_status_after_ok (now : Int) (s s1 : SimState) (run : RemoteRun)
    (status : RemoteStatus) (reason : Option String)
    (hck : checkRunExists now s = (s1, Except.ok ()))
    (hr1 : s1.remote = some run) (hc1 : s1.cache ≠ CacheFile.absent) :
    set_run_status now s status reason
      = ({ s1 with
            remote := some { status := status, metrics := run.metrics },
            cache := if status.isTerminal then CacheFile.absent else s1.cache,
            aborts := match status, reason with
                      | RemoteStatus.terminated, some r => s1.aborts ++ [r]
                      | _, _ => s1.aborts,
            statusSets := s1.statusSets ++ [status] },
         Except.ok ()) := by
  cases hcs : s1.cache with
  | absent => exact absurd hcs hc1
  | malformed =>
    cases status <;> cases reason <;>
      simp [set_run_status, hck, hr1, hcs, unlinkFile, RemoteStatus.isTerminal]
  | entry e =>
    cases status <;> cases reason <;>
      simp [set_run_status, hck, hr1, hcs, unlinkFile, RemoteStatus.isTerminal]

/-- The status a freshly created run receives (`"running" if running else
"created"`) is never terminal. -/
theorem createdStatus_not_terminal (running : Bool) :
    (if running then RemoteStatus.running else RemoteStatus.created).isTerminal = false := by
  cases running <;> rfl

/-! ## Closed form for N sequential log_metrics calls after run creation -/

theorem logMetricsLoop_closed (now0 : Int) (s : SimState) (running : Bool)
    (values : List (String × Int)) (times : Nat → Int) (n : Nat) :
    logMetricsLoop values times (create_simvue_run now0 s running) n
      = { create_simvue_run now0 s running with
            cache := CacheFile.entry { step := n, start_time := now0 },
            submittedMetrics := s.submittedMetrics
              ++ (List.range n).map (fun k =>
                   { values := values, time := times k - now0, step := k }) } := by
  induction n with
  | zero =>
    simp [logMetricsLoop, create_simvue_run]
  | succ n ih =>
    rw [logMetricsLoop, ih]
    have hr : ({ create_simvue_run now0 s running with
        cache := CacheFile.entry { step := n, start_time := now0 },
        submittedMetrics := s.submittedMetrics
          ++ (List.range n).map (fun k =>
               { values := values, time := times k - now0, step := k }) } : SimState).remote
        = some { status := if running then RemoteStatus.running else RemoteStatus.created,
                 metrics := [] } := by
      simp [create_simvue_run]
    have hstep := log_metrics_entry_ok (times n)
      { create_simvue_run now0 s running with
          cache := CacheFile.entry { step := n, start_time := now0 },
          submittedMetrics := s.submittedMetrics
            ++ (List.range n).map (fun k =>
                 { values := values, time := times k - now0, step := k }) }
      { status := if running then RemoteStatus.running else RemoteStatus.created,
        metrics := [] }
      { step := n, start_time := now0 } values hr
      (createdStatus_not_terminal running) (by simp [create_simvue_run])
    rw [hstep]
    simp [create_simvue_run, List.range_succ]

/-! ## Shape of a failed reconciliation and of each action's outcomes -/

/-- A failing `_check_run_exists` always deletes the cache file, raises one of
the two domain errors, and mutates nothing else. -/
theorem checkRunExists_error_shape (now : Int) (s s1 : SimState) (e : ActionError)
    (h : checkRunExists now s = (s1, Except.error e)) :
    s1.cache = CacheFile.absent ∧ e.isDomain = true ∧
    s1 = { s with cache := CacheFile.absent } := by
  rcases checkRunExists_cases now s with ⟨hn, hx⟩ | ⟨run, hr, ht, hx⟩ |
    ⟨run, hr, ht, ⟨hc, hx⟩ | ⟨hc, hx⟩⟩ <;> rw [hx] at h
  · injection h with h1 h2
    injection h2 with h3
    subst h3
    exact ⟨by rw [← h1], rfl, h1.symm⟩
  · injection h with h1 h2
    injection h2 with h3
    subst h3
    exact ⟨by rw [← h1], rfl, h1.symm⟩
  · simp at h
  · simp at h

theorem log_metrics_ok_shape (now : Int) (s : SimState)
    (values : List (String × Int)) (b : Bool) (s1 : SimState)
    (h : log_metrics now s values b = (s1, Except.ok ())) :
    s1.cache ≠ CacheFile.absent := by
  cases hck : checkRunExists now s with
  | mk sck r =>
    cases r with
    | error e0 =>
      rw [log_metrics_ck_error now s sck e0 values b hck] at h
      simp at h
    | ok u =>
      cases u
      obtain ⟨-, hcne, c, hs1⟩ := checkRunExists_ok_shape now s sck hck
      cases hcs : sck.cache with
      | absent => exact absurd hcs hcne
      | malformed =>
        rw [log_metrics_after_ok_malformed now s sck values b hck hcs] at h
        simp at h
      | entry ec =>
        cases b with
        | true =>
          rw [(log_metrics_after_ok now s sck ec values hck hcs).1] at h
          injection h with h1 h2
          rw [← h1]
          simp
        | false =>
          rw [(log_metrics_after_ok now s sck ec values hck hcs).2] at h
          simp at h

theorem log_metrics_error_shape (now : Int) (s : SimState)
    (values : List (String × Int)) (b : Bool) (s1 : SimState) (e : ActionError)
    (h : log_metrics now s values b = (s1, Except.error e))
    (he : e.isDomain = true) :
    s1.cache = CacheFile.absent := by
  cases hck : checkRunExists now s with
  | mk sck r =>
    cases r with
    | error e0 =>
      rw [log_metrics_ck_error now s sck e0 values b hck] at h
      injection h with h1 h2
      injection h2 with h3
      rw [← h1]
      exact (checkRunExists_error_shape now s sck e0 hck).1
    | ok u =>
      cases u
      obtain ⟨-, hcne, c, hs1⟩ := checkRunExists_ok_shape now s sck hck
      cases hcs : sck.cache with
      | absent => exact absurd hcs hcne
      | malformed =>
        rw [log_metrics_after_ok_malformed now s sck values b hck hcs] at h
        injection h with h1 h2
        injection h2 with h3
        rw [← h3] at he
        simp [ActionError.isDomain] at he
      | entry ec =>
        cases b with
        | true =>
          rw [(log_metrics_after_ok now s sck ec values hck hcs).1] at h
          simp at h
        | false =>
          rw [(log_metrics_after_ok now s sck ec values hck hcs).2] at h
          injection h with h1 h2
          injection h2 with h3
          rw [← h3] at he
          simp [ActionError.isDomain] at he

theorem log_event_ok_shape (now : Int) (s : SimState) (msg : String) (b : Bool)
    (s1 : SimState) (h : log_event now s msg b = (s1, Except.ok ())) :
    s1.cache ≠ CacheFile.absent := by
  cases hck : checkRunExists now s with
  | mk sck r =>
    cases r with
    | error e0 =>
      rw [log_event_ck_error now s sck e0 msg b hck] at h
      simp at h
    | ok u =>
      cases u
      obtain ⟨-, hcne, c, hs1⟩ := checkRunExists_ok_shape now s sck hck
      cases b with
      | true =>
        rw [(log_event_after_ok now s sck msg hck).1] at h
        injection h with h1 h2
        rw [← h1]
        exact hcne
      | false =>
        rw [(log_event_after_ok now s sck msg hck).2] at h
        simp at h

theorem log_event_error_shape (now : Int) (s : SimState) (msg : String) (b : Bool)
    (s1 : SimState) (e : ActionError)
    (h : log_event now s msg b = (s1, Except.error e))
    (he : e.isDomain = true) :
    s1.cache = CacheFile.absent := by
  cases hck : checkRunExists now s with
  | mk sck r =>
    cases r with
    | error e0 =>
      rw [log_event_ck_error now s sck e0 msg b hck] at h
      injection h with h1 h2
      rw [← h1]
      exact (checkRunExists_error_shape now s sck e0 hck).1
    | ok u =>
      cases u
      cases b with
      | true =>
        rw [(log_event_after_ok now s sck msg hck).1] at h
        simp at h
      | false =>
        rw [(log_event_after_ok now s sck msg hck).2] at h
        injection h with h1 h2
        injection h2 with h3
        rw [← h3] at he
        simp [ActionError.isDomain] at he

theorem update_metadata_ok_shape (now : Int) (s : SimState) (md : String × String)
    (b : Bool) (s1 : SimState)
    (h : update_metadata now s md b = (s1, Except.ok ())) :
    s1.cache ≠ CacheFile.absent := by
  cases hck : checkRunExists now s with
  | mk sck r =>
    cases r with
    | error e0 =>
      rw [update_metadata_ck_error now s sck e0 md b hck] at h
      simp at h
    | ok u =>
      cases u
      obtain ⟨-, hcne, c, hs1⟩ := checkRunExists_ok_shape now s sck hck
      cases b with
      | true =>
        rw [(update_metadata_after_ok now s sck md hck).1] at h
        injection h with h1 h2
        rw [← h1]
        exact hcne
      | false =>
        rw [(update_metadata_after_ok now s sck md hck).2] at h
        simp at h

theorem update_metadata_error_shape (now : Int) (s : SimState) (md : String × String)
    (b : Bool) (s1 : SimState) (e : ActionError)
    (h : update_metadata now s md b = (s1, Except.error e))
    (he : e.isDomain = true) :
    s1.cache = CacheFile.absent := by
  cases hck : checkRunExists now s with
  | mk sck r =>
    cases r with
    | error e0 =>
      rw [update_metadata_ck_error now s sck e0 md b hck] at h
      injection h with h1 h2
      rw [← h1]
      exact (checkRunExists_error_shape now s sck e0 hck).1
    | ok u =>
      cases u
      cases b with
      | true =>
        rw [(update_metadata_after_ok now s sck md hck).1] at h
        simp at h
      | false =>
        rw [(update_metadata_after_ok now s sck md hck).2] at h
        injection h with h1 h2
        injection h2 with h3
        rw [← h3] at he
        simp [ActionError.isDomain] at he

theorem set_run_status_ok_shape (now : Int) (s : SimState) (status : RemoteStatus)
    (reason : Option String) (s1 : SimState)
    (h : set_run_status now s status reason = (s1, Except.ok ())) :
    (s1.cache = CacheFile.absent ↔ status.isTerminal = true) := by
  cases hck : checkRunExists now s with
  | mk sck r =>
    cases r with
    | error e0 =>
      rw [set_run_status_ck_error now s sck e0 status reason hck] at h
      simp at h
    | ok u =>
      cases u
      obtain ⟨⟨run, hr, ht⟩, hcne, c, hs1⟩ := checkRunExists_ok_shape now s sck hck
      have hr1 : sck.remote = some run := by rw [hs1]; exact hr
      rw [set_run_status_after_ok now s sck run status reason hck hr1 hcne] at h
      injection h with h1 h2
      rw [← h1]
      cases hts : status.isTerminal <;> simp [hts, hcne]

/-- `set_run_status` fails only inside the reconciler: whenever it returns an
error, the error is a domain error and the cache file has been purged.  In
particular the bare `unlink()` at its end is never reached with the file
absent. -/
theorem set_run_status_error_shape (now : Int) (s : SimState) (status : RemoteStatus)
    (reason : Option String) (s1 : SimState) (e : ActionError)
    (h : set_run_status now s status reason = (s1, Except.error e)) :
    s1.cache = CacheFile.absent ∧ e.isDomain = true := by
  cases hck : checkRunExists now s with
  | mk sck r =>
    cases r with
    | error e0 =>
      rw [set_run_status_ck_error now s sck e0 status reason hck] at h
      injection h with h1 h2
      injection h2 with h3
      have hsh := checkRunExists_error_shape now s sck e0 hck
      exact ⟨by rw [← h1]; exact hsh.1, by rw [← h3]; exact hsh.2.1⟩
    | ok u =>
      cases u
      obtain ⟨⟨run, hr, ht⟩, hcne, c, hs1⟩ := checkRunExists_ok_shape now s sck hck
      have hr1 : sck.remote = some run := by rw [hs1]; exact hr
      rw [set_run_status_after_ok now s sck run status reason hck hr1 hcne] at h
      simp at h

theorem metricSteps_cons (m : Metric) (ms : List Metric) :
    metricSteps (m :: ms) = m.step.getD 0 :: metricSteps ms := rfl

theorem metricTimes_cons (m : Metric) (ms : List Metric) :
    metricTimes (m :: ms) = m.time.getD 0 :: metricTimes ms := rfl

/-! ## Claim theorems -/

/-- C1: for every run identifier whose remote run exists and is active and
for which no local cache file exists, reconciliation (`_check_run_exists`)
synthesizes and persists a cache entry with `step` equal to the maximum step
over the run's recorded metrics (0 if the run has no recorded metrics) and
`start_time` equal to the minimum time over the run's recorded metrics (the
current wall-clock time if none), before returning. -/
theorem reconcile_synthesizes_cache_entry (now : Int) (s : SimState) (run : RemoteRun)
    (hr : s.remote = some run) (ht : run.status.isTerminal = false)
    (hc : s.cache = CacheFile.absent) :
    ∃ e : CacheEntry,
      checkRunExists now s = ({ s with cache := CacheFile.entry e }, Except.ok ()) ∧
      (run.metrics = [] → e.step = 0 ∧ e.start_time = now) ∧
      (run.metrics ≠ [] →
        (e.step ∈ metricSteps run.metrics ∧
          ∀ y ∈ metricSteps run.metrics, y ≤ e.step) ∧
        (e.start_time ∈ metricTimes run.metrics ∧
          ∀ y ∈ metricTimes run.metrics, e.start_time ≤ y)) := by
  refine ⟨synthEntry now run, checkRunExists_active_absent now s run hr ht hc, ?_, ?_⟩
  · intro hm
    simp [synthEntry, metricSteps, metricTimes, hm]
  · intro hm
    obtain ⟨m, ms, hms⟩ : ∃ m ms, run.metrics = m :: ms := by
      cases hx : run.metrics with
      | nil => exact absurd hx hm
      | cons m ms => exact ⟨m, ms, rfl⟩
    have hse : synthEntry now run
        = { step := pyMaxList (metricSteps run.metrics),
            start_time := pyMinList (metricTimes run.metrics) } := by
      simp [synthEntry, hms, metricSteps, metricTimes]
    rw [hse, hms, metricSteps_cons, metricTimes_cons]
    exact ⟨⟨pyMaxList_mem _ _, fun y hy => le_pyMaxList _ _ y hy⟩,
           ⟨pyMinList_mem _ _, fun y hy => pyMinList_le _ _ y hy⟩⟩

/-- C1 witness: the externally-created-run scenario, metrics at steps 3 and 7,
times 10 and 20, reconciled at wall-clock time 100. -/
theorem reconcile_synthesizes_cache_entry_witness :
    ∃ e : CacheEntry,
      checkRunExists 100 stAbsent
        = ({ stAbsent with cache := CacheFile.entry e }, Except.ok ()) ∧
      (runTwoMetrics.metrics = [] → e.step = 0 ∧ e.start_time = 100) ∧
      (runTwoMetrics.metrics ≠ [] →
        (e.step ∈ metricSteps runTwoMetrics.metrics ∧
          ∀ y ∈ metricSteps runTwoMetrics.metrics, y ≤ e.step) ∧
        (e.start_time ∈ metricTimes runTwoMetrics.metrics ∧
          ∀ y ∈ metricTimes runTwoMetrics.metrics, e.start_time ≤ y)) :=
  reconcile_synthesizes_cache_entry 100 stAbsent runTwoMetrics rfl rfl rfl

/-- C2: for every run identifier whose fetched remote status is terminal
(completed, failed, lost or terminated), reconciliation deletes the local
cache file, raises the inactivity error carrying the observed status, and no
operation performs any other mutation after this failure. -/
theorem reconcile_terminal_purges_and_raises (now : Int) (s : SimState)
    (run : RemoteRun) (hr : s.remote = some run) (ht : run.status.isTerminal = true) :
    checkRunExists now s
      = ({ s with cache := CacheFile.absent },
         Except.error (ActionError.runInactive run.status)) ∧
    (∀ values b, log_metrics now s values b
      = ({ s with cache := CacheFile.absent },
         Except.error (ActionError.runInactive run.status))) ∧
    (∀ msg b, log_event now s msg b
      = ({ s with cache := CacheFile.absent },
         Except.error (ActionError.runInactive run.status))) ∧
    (∀ status reason, set_run_status now s status reason
      = ({ s with cache := CacheFile.absent },
         Except.error (ActionError.runInactive run.status))) ∧
    (∀ md b, update_metadata now s md b
      = ({ s with cache := CacheFile.absent },
         Except.error (ActionError.runInactive run.status))) := by
  have h := checkRunExists_terminal now s run hr ht
  exact ⟨h,
    fun values b => log_metrics_ck_error now s _ _ values b h,
    fun msg b => log_event_ck_error now s _ _ msg b h,
    fun status reason => set_run_status_ck_error now s _ _ status reason h,
    fun md b => update_metadata_ck_error now s _ _ md b h⟩

/-- C2 witness: a completed remote run with a stale cache file; the
reconciler purges the file and raises the inactivity error carrying
the status, and a metric submission attempt does the same. -/
theorem reconcile_terminal_purges_and_raises_witness :
    checkRunExists 50 stDone
      = ({ stDone with cache := CacheFile.absent },
         Except.error (ActionError.runInactive RemoteStatus.completed)) ∧
    log_metrics 50 stDone [("x", 1)] true
      = ({ stDone with cache := CacheFile.absent },
         Except.error (ActionError.runInactive RemoteStatus.completed)) :=
  ⟨(reconcile_terminal_purges_and_raises 50 stDone runDone rfl rfl).1,
   (reconcile_terminal_purges_and_raises 50 stDone runDone rfl rfl).2.1 [("x", 1)] true⟩

/-- C3: for every run identifier not known to the remote service,
reconciliation deletes the local cache file and raises the not-found error;
no operation performs any other mutation after this failure. -/
theorem reconcile_missing_purges_and_raises (now : Int) (s : SimState)
    (hr : s.remote = none) :
    checkRunExists now s
      = ({ s with cache := CacheFile.absent }, Except.error ActionError.runNotFound) ∧
    (∀ values b, log_metrics now s values b
      = ({ s with cache := CacheFile.absent }, Except.error ActionError.runNotFound)) ∧
    (∀ msg b, log_event now s msg b
      = ({ s with cache := CacheFile.absent }, Except.error ActionError.runNotFound)) ∧
    (∀ status reason, set_run_status now s status reason
      = ({ s with cache := CacheFile.absent }, Except.error ActionError.runNotFound)) ∧
    (∀ md b, update_metadata now s md b
      = ({ s with cache := CacheFile.absent }, Except.error ActionError.runNotFound)) := by
  have h := checkRunExists_notFound now s hr
  exact ⟨h,
    fun values b => log_metrics_ck_error now s _ _ values b h,
    fun msg b => log_event_ck_error now s _ _ msg b h,
    fun status reason => set_run_status_ck_error now s _ _ status reason h,
    fun md b => update_metadata_ck_error now s _ _ md b h⟩

/-- C3 witness: an identifier unknown to the server with a stale cache file;
the reconciler purges the file and raises the not-found error, and a status
update attempt does the same. -/
theorem reconcile_missing_purges_and_raises_witness :
    checkRunExists 50 stGone
      = ({ stGone with cache := CacheFile.absent }, Except.error ActionError.runNotFound) ∧
    set_run_status 50 stGone RemoteStatus.completed none
      = ({ stGone with cache := CacheFile.absent }, Except.error ActionError.runNotFound) :=
  ⟨(reconcile_missing_purges_and_raises 50 stGone rfl).1,
   (reconcile_missing_purges_and_raises 50 stGone rfl).2.2.2.1 RemoteStatus.completed none⟩

/-- C4: for every N, starting from a run freshly created by
`create_simvue_run` (cache entry with step 0 and `start_time = now`), N
sequential single-process `log_metrics` calls submit metric samples whose
step values are exactly 0, 1, ..., N-1 in order, each call succeeding. -/
theorem log_metrics_steps_gapless (now0 : Int) (s : SimState) (running : Bool)
    (values : List (String × Int)) (times : Nat → Int) (n : Nat) :
    List.map MetricSample.step
        ((logMetricsLoop values times (create_simvue_run now0 s running) n).submittedMetrics)
      = List.map MetricSample.step s.submittedMetrics ++ List.range n ∧
    (∀ k, k < n →
      (log_metrics (times k)
          (logMetricsLoop values times (create_simvue_run now0 s running) k)
          values true).2 = Except.ok ()) := by
  constructor
  · rw [logMetricsLoop_closed]
    have hid : (MetricSample.step ∘ fun k =>
        ({ values := values, time := times k - now0, step := k } : MetricSample)) = id := rfl
    simp [create_simvue_run, List.map_map, hid]
  · intro k hk
    rw [logMetricsLoop_closed]
    rw [log_metrics_entry_ok (times k) _
      { status := if running then RemoteStatus.running else RemoteStatus.created,
        metrics := [] }
      { step := k, start_time := now0 } values (by simp [create_simvue_run])
      (createdStatus_not_terminal running) (by simp [create_simvue_run])]

/-- C5 counterexample: an active run with a malformed local cache file.  The
reconciler checks only file existence, so it returns with the file still
malformed (no re-synthesis), and `log_metrics` then fails with a JSON parse
error instead of proceeding — refuting the claim that every run-mutating
operation treats an unparsable cache file as absent. -/
theorem malformed_cache_not_treated_as_absent :
    checkRunExists 100 stBad = (stBad, Except.ok ()) ∧
    log_metrics 100 stBad [("x", 1)] true
      = (stBad, Except.error ActionError.jsonDecodeError) := by
  constructor <;> rfl

/-- C5 amended: the reconciler checks only existence of the cache file, so a
malformed-but-present file is left in place (not re-synthesized);
`log_metrics`, which re-reads the file, then raises a parse error, while
`log_event` and `update_metadata`, which never read it, proceed normally. -/
theorem malformed_cache_behavior (now : Int) (s : SimState) (run : RemoteRun)
    (hr : s.remote = some run) (ht : run.status.isTerminal = false)
    (hc : s.cache = CacheFile.malformed) :
    checkRunExists now s = (s, Except.ok ()) ∧
    (∀ values b, log_metrics now s values b
      = (s, Except.error ActionError.jsonDecodeError)) ∧
    (∀ msg, log_event now s msg true
      = ({ s with submittedEvents := s.submittedEvents ++ [msg] }, Except.ok ())) ∧
    (∀ md, update_metadata now s md true
      = ({ s with metadataWrites := s.metadataWrites ++ [md] }, Except.ok ())) := by
  refine ⟨checkRunExists_active_present now s run hr ht (by simp [hc]), ?_, ?_, ?_⟩
  · exact fun values b => log_metrics_malformed now s run values b hr ht hc
  · exact fun msg => log_event_present_ok now s run msg hr ht (by simp [hc])
  · exact fun md => update_metadata_present_ok now s run md hr ht (by simp [hc])

/-- C5 amended witness: the malformed-cache state evaluated concretely. -/
theorem malformed_cache_behavior_witness :
    checkRunExists 100 stBad = (stBad, Except.ok ()) ∧
    log_metrics 100 stBad [("y", 2)] false
      = (stBad, Except.error ActionError.jsonDecodeError) ∧
    log_event 100 stBad "hello" true
      = ({ stBad with submittedEvents := stBad.submittedEvents ++ ["hello"] },
         Except.ok ()) :=
  ⟨(malformed_cache_behavior 100 stBad runLive rfl rfl rfl).1,
   (malformed_cache_behavior 100 stBad runLive rfl rfl rfl).2.1 [("y", 2)] false,
   (malformed_cache_behavior 100 stBad runLive rfl rfl rfl).2.2.1 "hello"⟩

/-- C6 counterexample: on an active run with a cache entry,
`set_run_status(run, terminated, reason)` records the abort on the server AND
also sets the status directly — both remote mutations are performed, refuting
the claim that exactly one of the two is. -/
theorem set_run_status_terminated_double_mutation :
    (set_run_status 100 stLive RemoteStatus.terminated (some "stop")).1.aborts
      = ["stop"] ∧
    (set_run_status 100 stLive RemoteStatus.terminated (some "stop")).1.statusSets
      = [RemoteStatus.terminated] ∧
    (set_run_status 100 stLive RemoteStatus.terminated (some "stop")).2
      = Except.ok () := by
  refine ⟨rfl, rfl, rfl⟩

/-- C6 amended: for every active run with a cache file present,
`set_run_status` records the abort when the new status is `terminated` with a
reason given and then also sets the status directly (otherwise it only sets
the status); and after success the local cache file is deleted if and only if
the new status is terminal.  No metric, event or metadata mutation occurs. -/
theorem set_run_status_both_mutations_and_purge (now : Int) (s : SimState)
    (run : RemoteRun) (status : RemoteStatus) (reason : Option String)
    (hr : s.remote = some run) (ht : run.status.isTerminal = false)
    (hc : s.cache ≠ CacheFile.absent) :
    ∃ s1, set_run_status now s status reason = (s1, Except.ok ()) ∧
      s1.statusSets = s.statusSets ++ [status] ∧
      s1.aborts = (match status, reason with
                   | RemoteStatus.terminated, some r => s.aborts ++ [r]
                   | _, _ => s.aborts) ∧
      (s1.cache = CacheFile.absent ↔ status.isTerminal = true) ∧
      s1.submittedMetrics = s.submittedMetrics ∧
      s1.submittedEvents = s.submittedEvents ∧
      s1.metadataWrites = s.metadataWrites := by
  have hck := checkRunExists_active_present now s run hr ht hc
  have h := set_run_status_after_ok now s s run status reason hck hr hc
  exact ⟨_, h, rfl, rfl, (by cases hts : status.isTerminal <;> simp [hts, hc]),
         rfl, rfl, rfl⟩

/-- C6 amended witness: aborting a running run with a reason performs both
remote mutations and deletes the cache file. -/
theorem set_run_status_both_mutations_and_purge_witness :
    ∃ s1, set_run_status 100 stLive RemoteStatus.terminated (some "stop")
        = (s1, Except.ok ()) ∧
      s1.statusSets = stLive.statusSets ++ [RemoteStatus.terminated] ∧
      s1.aborts = stLive.aborts ++ ["stop"] ∧
      (s1.cache = CacheFile.absent ↔ RemoteStatus.terminated.isTerminal = true) ∧
      s1.submittedMetrics = stLive.submittedMetrics ∧
      s1.submittedEvents = stLive.submittedEvents ∧
      s1.metadataWrites = stLive.metadataWrites :=
  set_run_status_both_mutations_and_purge 100 stLive runLive
    RemoteStatus.terminated (some "stop") rfl rfl (by simp [stLive])

/-- C7: the cache-presence invariant.  Whenever `_check_run_exists` returns
normally the cache file exists; whenever it fails the cache file has been
deleted; every action that returns normally leaves the cache file present
(for `set_run_status`, present exactly when the new status is not terminal);
and every action failing with a domain error (run not found or run inactive)
leaves the cache file deleted. -/
theorem cache_presence_invariant (now : Int) (s : SimState) :
    (∀ s1, checkRunExists now s = (s1, Except.ok ()) →
      s1.cache ≠ CacheFile.absent) ∧
    (∀ s1 e, checkRunExists now s = (s1, Except.error e) →
      s1.cache = CacheFile.absent) ∧
    (∀ values b s1, log_metrics now s values b = (s1, Except.ok ()) →
      s1.cache ≠ CacheFile.absent) ∧
    (∀ values b s1 e, log_metrics now s values b = (s1, Except.error e) →
      e.isDomain = true → s1.cache = CacheFile.absent) ∧
    (∀ msg b s1, log_event now s msg b = (s1, Except.ok ()) →
      s1.cache ≠ CacheFile.absent) ∧
    (∀ msg b s1 e, log_event now s msg b = (s1, Except.error e) →
      e.isDomain = true → s1.cache = CacheFile.absent) ∧
    (∀ md b s1, update_metadata now s md b = (s1, Except.ok ()) →
      s1.cache ≠ CacheFile.absent) ∧
    (∀ md b s1 e, update_metadata now s md b = (s1, Except.error e) →
      e.isDomain = true → s1.cache = CacheFile.absent) ∧
    (∀ status reason s1, set_run_status now s status reason = (s1, Except.ok ()) →
      (s1.cache = CacheFile.absent ↔ status.isTerminal = true)) ∧
    (∀ status reason s1 e, set_run_status now s status reason = (s1, Except.error e) →
      s1.cache = CacheFile.absent) :=
  ⟨fun s1 h => (checkRunExists_ok_shape now s s1 h).2.1,
   fun s1 e h => (checkRunExists_error_shape now s s1 e h).1,
   fun values b s1 h => log_metrics_ok_shape now s values b s1 h,
   fun values b s1 e h he => log_metrics_error_shape now s values b s1 e h he,
   fun msg b s1 h => log_event_ok_shape now s msg b s1 h,
   fun msg b s1 e h he => log_event_error_shape now s msg b s1 e h he,
   fun md b s1 h => update_metadata_ok_shape now s md b s1 h,
   fun md b s1 e h he => update_metadata_error_shape now s md b s1 e h he,
   fun status reason s1 h => set_run_status_ok_shape now s status reason s1 h,
   fun status reason s1 e h => (set_run_status_error_shape now s status reason s1 e h).1⟩

/-- C8 counterexample: the deletion primitive used at the end of
`set_run_status` is a bare `unlink()`; two successive deletes starting from a
present cache file do not both succeed — the second raises
`FileNotFoundError` because the file is already absent. -/
theorem bare_unlink_twice_raises :
    (unlinkFile (CacheFile.entry { step := 0, start_time := 0 })).bind unlinkFile
      = Except.error ActionError.fileNotFoundError ∧
    unlinkFile CacheFile.absent = Except.error ActionError.fileNotFoundError := by
  exact ⟨rfl, rfl⟩

/-- C8 amended: the cache deletions performed by the reconciler are
existence-guarded and idempotent — deleting when the file is already absent
does not raise, and two successive guarded deletes both succeed — while the
bare `unlink()` in `set_run_status` raises on an absent file but is only
reached when the reconciler has guaranteed the file exists, so
`set_run_status` never raises `FileNotFoundError`. -/
theorem guarded_delete_idempotent (c : CacheFile) (now : Int) (s : SimState)
    (status : RemoteStatus) (reason : Option String) :
    guardedDelete CacheFile.absent = Except.ok CacheFile.absent ∧
    guardedDelete c = Except.ok CacheFile.absent ∧
    (guardedDelete c).bind guardedDelete = Except.ok CacheFile.absent ∧
    ((set_run_status now s status reason).2
        = Except.error ActionError.fileNotFoundError → False) := by
  refine ⟨rfl, ?_, ?_, ?_⟩
  · cases c <;> rfl
  · cases c <;> rfl
  · intro hbad
    cases hres : set_run_status now s status reason with
    | mk s1 r =>
      rw [hres] at hbad
      cases r with
      | ok u => exact Except.noConfusion hbad
      | error e =>
        have h3 : e = ActionError.fileNotFoundError := Except.error.inj hbad
        have hsh := (set_run_status_error_shape now s status reason s1 e hres).2
        rw [h3] at hsh
        simp [ActionError.isDomain] at hsh

/-- C9: for every active run whose local cache file exists (with parsed entry
`e`), `log_event` and `update_metadata` leave the cache entry unchanged,
whether or not the remote commit succeeds. -/
theorem log_event_update_metadata_frame (now : Int) (s : SimState)
    (run : RemoteRun) (e : CacheEntry) (msg : String) (md : String × String)
    (b b' : Bool)
    (hr : s.remote = some run) (ht : run.status.isTerminal = false)
    (hc : s.cache = CacheFile.entry e) :
    (log_event now s msg b).1.cache = CacheFile.entry e ∧
    (update_metadata now s md b').1.cache = CacheFile.entry e := by
  have hc' : s.cache ≠ CacheFile.absent := by simp [hc]
  constructor
  · cases b with
    | true => rw [log_event_present_ok now s run msg hr ht hc']; exact hc
    | false => rw [log_event_present_commitFail now s run msg hr ht hc']; exact hc
  · cases b' with
    | true => rw [update_metadata_present_ok now s run md hr ht hc']; exact hc
    | false => rw [update_metadata_present_commitFail now s run md hr ht hc']; exact hc

/-- C9 witness: logging an event and updating metadata on a live run leave
the concrete cache entry untouched. -/
theorem log_event_update_metadata_frame_witness :
    (log_event 100 stLive "hi" true).1.cache
      = CacheFile.entry { step := 0, start_time := 5 } ∧
    (update_metadata 100 stLive ("k", "v") false).1.cache
      = CacheFile.entry { step := 0, start_time := 5 } :=
  log_event_update_metadata_frame 100 stLive runLive
    { step := 0, start_time := 5 } "hi" ("k", "v") true false rfl rfl rfl

/-- C10: `log_metrics` is atomic with respect to the cache on submission
failure — when the metric commit raises, the whole state (in particular the
cache entry's step and start_time) is exactly as before the call; the step
counter is incremented and persisted only after a successful commit. -/
theorem log_metrics_atomic_on_failure (now : Int) (s : SimState)
    (run : RemoteRun) (e : CacheEntry) (values : List (String × Int))
    (hr : s.remote = some run) (ht : run.status.isTerminal = false)
    (hc : s.cache = CacheFile.entry e) :
    log_metrics now s values false = (s, Except.error ActionError.commitFailed) ∧
    log_metrics now s values true
      = ({ s with
            submittedMetrics := s.submittedMetrics
              ++ [{ values := values, time := now - e.start_time, step := e.step }],
            cache := CacheFile.entry { step := e.step + 1, start_time := e.start_time } },
         Except.ok ()) :=
  ⟨log_metrics_entry_commitFail now s run e values hr ht hc,
   log_metrics_entry_ok now s run e values hr ht hc⟩

/-- C10 witness: a failing metric commit on the live example state leaves the
state exactly unchanged; a succeeding one increments the persisted step. -/
theorem log_metrics_atomic_on_failure_witness :
    log_metrics 100 stLive [("x", 1)] false
      = (stLive, Except.error ActionError.commitFailed) ∧
    log_metrics 100 stLive [("x", 1)] true
      = ({ stLive with
            submittedMetrics := stLive.submittedMetrics
              ++ [{ values := [("x", 1)], time := 100 - 5, step := 0 }],
            cache := CacheFile.entry { step := 0 + 1, start_time := 5 } },
         Except.ok ()) :=
  log_metrics_atomic_on_failure 100 stLive runLive
    { step := 0, start_time := 5 } [("x", 1)] rfl rfl rfl
